import Mathlib

/-!
Verification of the deck-gen pipeline's JSON-repair / retry / cost-tracking
subsystem. Definitions are shallow embeddings of the JavaScript source in
src/pipeline/agents (openai-synthesizer.js, gemini-generator.js,
claude-classifier.js) and the image-generator agent. JavaScript numbers are
modelled as rationals, strings as Lean strings (lists of characters),
exceptions as Except/Option or explicit Bool flags.
-/

set_option maxRecDepth 10000

/-! ## Character utilities -/

/-- JSON whitespace characters, also used to model the JavaScript regex
class \s and String.prototype.trim for the ASCII inputs this pipeline sees. -/
def isWsChar (c : Char) : Bool :=
  c == ' ' || c == '\t' || c == '\n' || c == '\r'

def isDigitChar (c : Char) : Bool :=
  '0' ≤ c && c ≤ '9'

def isHexChar (c : Char) : Bool :=
  isDigitChar c || ('a' ≤ c && c ≤ 'f') || ('A' ≤ c && c ≤ 'F')

/-- Drop leading JSON whitespace. -/
def skipWs : List Char → List Char
  | [] => []
  | c :: cs => if isWsChar c then skipWs cs else c :: cs

/-- Split off the maximal run of leading decimal digits. -/
def takeDigits : List Char → List Char × List Char
  | [] => ([], [])
  | c :: cs =>
    if isDigitChar c then
      let p := takeDigits cs
      (c :: p.1, p.2)
    else ([], c :: cs)

/-! ## JSON values

Model of the documents JSON.parse produces. String and number payloads are
kept as their raw source lexemes (escape sequences are validated but not
decoded); two parses of the same character run therefore yield equal values,
which is all the claims below compare. -/

inductive Json where
  | null : Json
  | bool (b : Bool) : Json
  | num (lexeme : List Char) : Json
  | str (raw : List Char) : Json
  | arr (elems : List Json) : Json
  | obj (members : List (List Char × Json)) : Json
deriving Repr

/-- Body of a JSON string literal, after the opening quote: validates escape
sequences and rejects raw control characters, exactly as JSON.parse does.
Returns the raw body and the input after the closing quote. -/
def strBody : List Char → Option (List Char × List Char)
  | [] => none
  | c :: cs =>
    if c == '"' then some ([], cs)
    else if c == '\\' then
      match cs with
      | [] => none
      | e :: cs2 =>
        if e == '"' || e == '\\' || e == '/' || e == 'b' || e == 'f'
            || e == 'n' || e == 'r' || e == 't' then
          match strBody cs2 with
          | some (raw, r) => some (c :: e :: raw, r)
          | none => none
        else if e == 'u' then
          match cs2 with
          | h1 :: h2 :: h3 :: h4 :: cs3 =>
            if isHexChar h1 && isHexChar h2 && isHexChar h3 && isHexChar h4 then
              match strBody cs3 with
              | some (raw, r) => some (c :: e :: h1 :: h2 :: h3 :: h4 :: raw, r)
              | none => none
            else none
          | _ => none
        else none
    else if c.toNat < 32 then none
    else
      match strBody cs with
      | some (raw, r) => some (c :: raw, r)
      | none => none

/-- Integer part of a JSON number: a single 0, or a nonzero digit followed
by any digits. -/
def numInt : List Char → Option (List Char × List Char)
  | [] => none
  | c :: cs =>
    if c == '0' then some ([c], cs)
    else if isDigitChar c then
      let p := takeDigits cs
      some (c :: p.1, p.2)
    else none

/-- Optional fraction part of a JSON number. -/
def numFrac : List Char → Option (List Char × List Char)
  | '.' :: cs =>
    let p := takeDigits cs
    if p.1.isEmpty then none else some ('.' :: p.1, p.2)
  | l => some ([], l)

/-- Optional exponent part of a JSON number. -/
def numExp : List Char → Option (List Char × List Char)
  | [] => some ([], [])
  | c :: cs =>
    if c == 'e' || c == 'E' then
      let sp : List Char × List Char :=
        match cs with
        | s :: t => if s == '+' || s == '-' then ([s], t) else ([], s :: t)
        | [] => ([], [])
      let p := takeDigits sp.2
      if p.1.isEmpty then none else some (c :: sp.1 ++ p.1, p.2)
    else some ([], c :: cs)

/-- A full JSON number lexeme. -/
def parseNum (l : List Char) : Option (List Char × List Char) :=
  let sp : List Char × List Char :=
    match l with
    | '-' :: t => (['-'], t)
    | _ => ([], l)
  match numInt sp.2 with
  | none => none
  | some (i, l2) =>
    match numFrac l2 with
    | none => none
    | some (f, l3) =>
      match numExp l3 with
      | none => none
      | some (e, r) => some (sp.1 ++ i ++ f ++ e, r)

mutual

/-- Parse one JSON value. The input must start at the value (callers skip
whitespace). Fuel bounds the recursion; jsonParse supplies enough. -/
def parseVal : Nat → List Char → Option (Json × List Char)
  | 0, _ => none
  | _ + 1, [] => none
  | f + 1, c :: cs =>
    if c == '\x7b' then
      match skipWs cs with
      | '\x7d' :: r => some (Json.obj [], r)
      | l1 => parseMembers f l1
    else if c == '[' then
      match skipWs cs with
      | ']' :: r => some (Json.arr [], r)
      | l1 => parseElems f l1
    else if c == '"' then
      match strBody cs with
      | some (raw, r) => some (Json.str raw, r)
      | none => none
    else if c == 't' then
      match cs with
      | 'r' :: 'u' :: 'e' :: r => some (Json.bool true, r)
      | _ => none
    else if c == 'f' then
      match cs with
      | 'a' :: 'l' :: 's' :: 'e' :: r => some (Json.bool false, r)
      | _ => none
    else if c == 'n' then
      match cs with
      | 'u' :: 'l' :: 'l' :: r => some (Json.null, r)
      | _ => none
    else if c == '-' || isDigitChar c then
      match parseNum (c :: cs) with
      | some (lex, r) => some (Json.num lex, r)
      | none => none
    else none

/-- Parse the members of a nonempty JSON object, starting at the first key
(whitespace already skipped); consumes through the closing brace. -/
def parseMembers : Nat → List Char → Option (Json × List Char)
  | 0, _ => none
  | f + 1, l =>
    match l with
    | '"' :: cs =>
      match strBody cs with
      | none => none
      | some (key, l1) =>
        match skipWs l1 with
        | ':' :: l2 =>
          match parseVal f (skipWs l2) with
          | none => none
          | some (v, l3) =>
            match skipWs l3 with
            | ',' :: l4 =>
              match parseMembers f (skipWs l4) with
              | some (Json.obj ms, r) => some (Json.obj ((key, v) :: ms), r)
              | _ => none
            | '\x7d' :: r => some (Json.obj [(key, v)], r)
            | _ => none
        | _ => none
    | _ => none

/-- Parse the elements of a nonempty JSON array, starting at the first
element (whitespace already skipped); consumes through the closing bracket. -/
def parseElems : Nat → List Char → Option (Json × List Char)
  | 0, _ => none
  | f + 1, l =>
    match parseVal f l with
    | none => none
    | some (v, l1) =>
      match skipWs l1 with
      | ',' :: l2 =>
        match parseElems f (skipWs l2) with
        | some (Json.arr es, r) => some (Json.arr (v :: es), r)
        | _ => none
      | ']' :: r => some (Json.arr [v], r)
      | _ => none

end

/-- Model of JSON.parse: whitespace, one value, trailing whitespace only.
Returns none where JSON.parse throws a SyntaxError. -/
def jsonParse (s : String) : Option Json :=
  let l := skipWs s.data
  match parseVal (2 * l.length + 2) l with
  | some (v, rest) => if (skipWs rest).isEmpty then some v else none
  | none => none

/-! ## Substring and extraction helpers -/

/-- Boolean test: does the second list start with the first? -/
def isPre : List Char → List Char → Bool
  | [], _ => true
  | _ :: _, [] => false
  | p :: ps, c :: cs => p == c && isPre ps cs

/-- Index of the first occurrence of pat in l, if any. -/
def findSub (pat l : List Char) : Option Nat :=
  (List.range (l.length + 1)).find? (fun i => isPre pat (l.drop i))

/-- Model of String.prototype.trim for the ASCII whitespace these inputs use. -/
def trimChars (l : List Char) : List Char :=
  ((l.dropWhile isWsChar).reverse.dropWhile isWsChar).reverse

/-- First suffix of the list starting with the given character. -/
def dropUntilChar (t : Char) : List Char → Option (List Char)
  | [] => none
  | c :: cs => if c == t then some (c :: cs) else dropUntilChar t cs

/-- Model of matching the code-fence regex used by extractJSON and taking its
first capture group: the first pair of triple-backtick fences, an optional
json tag, leading whitespace skipped, content up to the closing fence. -/
def fenceMatch (s : String) : Option String :=
  let l := s.data
  let fence : List Char := ['`', '`', '`']
  match (List.range (l.length + 1)).find?
      (fun i => isPre fence (l.drop i) && (findSub fence ((l.drop i).drop 3)).isSome) with
  | none => none
  | some i =>
    let after := (l.drop i).drop 3
    let after2 := if isPre ['j', 's', 'o', 'n'] after then after.drop 4 else after
    let body := after2.dropWhile isWsChar
    match findSub fence body with
    | none => none
    | some j => some (String.mk (body.take j))

/-- Model of the greedy raw-object regex used by extractJSON: the span from the
first opening brace to the last closing brace, provided the latter comes
after the former. -/
def braceMatch (s : String) : Option String :=
  match dropUntilChar '\x7b' s.data with
  | none => none
  | some t =>
    match dropUntilChar '\x7d' t.reverse with
    | none => none
    | some r => some (String.mk r.reverse)

/-- The JSON-looking substring extractJSON selects: a trimmed code-fence body
when one exists, otherwise the widest brace span. -/
def extractCandidate (s : String) : Option String :=
  match fenceMatch s with
  | some cap => some (String.mk (trimChars cap.data))
  | none => braceMatch s

/-! ## Repair passes (repairJSON)

Each numbered pass models one global regex replacement from repairJSON,
implemented as the same left-to-right scan the regex engine performs:
on a match, emit the replacement and continue after the matched span. -/

/-- Pass 1: remove trailing commas before a closing bracket or brace.
The fuel argument only bounds the scan (the wrapper passes the input length,
which always suffices since every step consumes at least one character);
it keeps the recursion structural so that concrete inputs evaluate. -/
def stripTrailingCommasGo : Nat → List Char → List Char
  | 0, l => l
  | _, [] => []
  | fuel + 1, c :: rest =>
    if c == ',' then
      match rest.dropWhile isWsChar with
      | c2 :: r3 =>
        if c2 == ']' || c2 == '\x7d' then
          rest.takeWhile isWsChar ++ c2 :: stripTrailingCommasGo fuel r3
        else c :: stripTrailingCommasGo fuel rest
      | [] => c :: stripTrailingCommasGo fuel rest
    else c :: stripTrailingCommasGo fuel rest

def stripTrailingCommas (l : List Char) : List Char :=
  stripTrailingCommasGo l.length l

/-- First alternative of the pass-2 regex: a quote, a digit, a true, false or
null literal, or a closer, with the capture and the rest of the input. -/
def litAlt (l : List Char) : Option (List Char × List Char) :=
  match l with
  | [] => none
  | c :: cs =>
    if c == '"' then some ([c], cs)
    else if isDigitChar c then some ([c], cs)
    else if isPre ['t', 'r', 'u', 'e'] l then some (['t', 'r', 'u', 'e'], l.drop 4)
    else if isPre ['f', 'a', 'l', 's', 'e'] l then some (['f', 'a', 'l', 's', 'e'], l.drop 5)
    else if isPre ['n', 'u', 'l', 'l'] l then some (['n', 'u', 'l', 'l'], l.drop 4)
    else if c == ']' || c == '\x7d' then some ([c], cs)
    else none

/-- Pass 2: insert a missing comma between a value token and a following
opener when separated by whitespace that contains a newline. -/
def insertNlCommasGo : Nat → List Char → List Char
  | 0, l => l
  | _, [] => []
  | fuel + 1, c :: cs =>
    match litAlt (c :: cs) with
    | some (cap1, r1) =>
      let w := r1.takeWhile isWsChar
      if w.contains '\n' then
        match r1.dropWhile isWsChar with
        | c3 :: r3 =>
          if c3 == '"' || c3 == '[' || c3 == '\x7b' then
            cap1 ++ ',' :: w ++ c3 :: insertNlCommasGo fuel r3
          else c :: insertNlCommasGo fuel cs
        | [] => c :: insertNlCommasGo fuel cs
      else c :: insertNlCommasGo fuel cs
    | none => c :: insertNlCommasGo fuel cs

def insertNlCommas (l : List Char) : List Char :=
  insertNlCommasGo l.length l

/-- Passes 3 through 6: insert a missing comma between closer a and opener b
separated only by whitespace. -/
def pairCommaGo (a b : Char) : Nat → List Char → List Char
  | 0, l => l
  | _, [] => []
  | fuel + 1, c :: cs =>
    if c == a then
      match cs.dropWhile isWsChar with
      | c2 :: r2 =>
        if c2 == b then
          c :: ',' :: cs.takeWhile isWsChar ++ c2 :: pairCommaGo a b fuel r2
        else c :: pairCommaGo a b fuel cs
      | [] => c :: pairCommaGo a b fuel cs
    else c :: pairCommaGo a b fuel cs

def pairComma (a b : Char) (l : List Char) : List Char :=
  pairCommaGo a b l.length l

/-- Pass 7: collapse a comma pair separated only by whitespace into one. -/
def collapseCommasGo : Nat → List Char → List Char
  | 0, l => l
  | _, [] => []
  | fuel + 1, c :: cs =>
    if c == ',' then
      match cs.dropWhile isWsChar with
      | c2 :: r2 =>
        if c2 == ',' then ',' :: collapseCommasGo fuel r2
        else c :: collapseCommasGo fuel cs
      | [] => c :: collapseCommasGo fuel cs
    else c :: collapseCommasGo fuel cs

def collapseCommas (l : List Char) : List Char :=
  collapseCommasGo l.length l

def hexDigit (n : Nat) : Char :=
  (("0123456789abcdef").data).getD n '0'

/-- The \u00XX escape fixStringEscaping emits for a control character. -/
def uEscape (n : Nat) : List Char :=
  ['\\', 'u', '0', '0', hexDigit (n / 16), hexDigit (n % 16)]

/-- Pass 8: the character scan of fixStringEscaping, tracking string and
escape state and escaping raw control characters inside strings. -/
def fixStringEscapingGo : Bool → Bool → List Char → List Char
  | _, _, [] => []
  | inString, escapeNext, c :: cs =>
    if escapeNext then c :: fixStringEscapingGo inString false cs
    else if c == '\\' then c :: fixStringEscapingGo inString true cs
    else if c == '"' then c :: fixStringEscapingGo (!inString) false cs
    else if inString then
      if c == '\n' then '\\' :: 'n' :: fixStringEscapingGo inString false cs
      else if c == '\r' then '\\' :: 'r' :: fixStringEscapingGo inString false cs
      else if c == '\t' then '\\' :: 't' :: fixStringEscapingGo inString false cs
      else if c.toNat < 32 then uEscape c.toNat ++ fixStringEscapingGo inString false cs
      else c :: fixStringEscapingGo inString false cs
    else c :: fixStringEscapingGo inString false cs

def fixStringEscaping (s : String) : String :=
  String.mk (fixStringEscapingGo false false s.data)

/-! ## closeOpenBrackets -/

/-- The bracket/string state tracked by the closeOpenBrackets scan. -/
structure ScanSt where
  stack : List Char
  inString : Bool
  escapeNext : Bool
deriving Repr, DecidableEq

/-- One step of the closeOpenBrackets scan. The stack holds the closing
character for every unmatched opener, most recent first. -/
def scanStep (st : ScanSt) (c : Char) : ScanSt :=
  if st.escapeNext then { st with escapeNext := false }
  else if c == '\\' then { st with escapeNext := true }
  else if c == '"' then { st with inString := !st.inString }
  else if !st.inString then
    if c == '\x7b' then { st with stack := '\x7d' :: st.stack }
    else if c == '[' then { st with stack := ']' :: st.stack }
    else if c == '\x7d' || c == ']' then
      match st.stack with
      | top :: rest => if top == c then { st with stack := rest } else st
      | [] => st
    else st
  else st

def scanChars (l : List Char) : ScanSt :=
  l.foldl scanStep ⟨[], false, false⟩

/-- Close any open brackets or braces in truncated JSON: scan the string,
then close an unterminated string and append the pending closers. -/
def closeOpenBrackets (s : String) : String :=
  let st := scanChars s.data
  let s1 := if st.inString then s ++ ("\"") else s
  s1 ++ String.mk st.stack

/-- Attempt to repair malformed JSON from LLM responses: the nine passes of
repairJSON applied in source order. -/
def repairJSON (s : String) : String :=
  let l1 := stripTrailingCommas s.data
  let l2 := insertNlCommas l1
  let l3 := pairComma '\x7d' '\x7b' l2
  let l4 := pairComma ']' '[' l3
  let l5 := pairComma ']' '\x7b' l4
  let l6 := pairComma '\x7d' '[' l5
  let l7 := collapseCommas l6
  let l8 := fixStringEscapingGo false false l7
  closeOpenBrackets (String.mk l8)

/-! ## Errors and extractJSON -/

/-- An underlying provider or runtime error: an optional error code plus a
message, the two fields the retry classifier looks at. -/
structure AgentErr where
  code : Option String
  message : String
deriving Repr, DecidableEq

/-- Model of the AgentError wrapper: message, original error and context
(name and timestamp fields omitted). -/
structure AgentError where
  message : String
  originalError : Option AgentErr
  context : List (String × String)
deriving Repr, DecidableEq

/-- Extract JSON from an LLM response: code-fence or brace-span candidate,
direct parse, then one repair attempt. Except.error models the throws;
the file-saving debug side effect is omitted. -/
def extractJSON (s : String) : Except AgentError Json :=
  match extractCandidate s with
  | none => Except.error ⟨("Could not extract JSON from response"), none, []⟩
  | some js =>
    if js.isEmpty then Except.error ⟨("Could not extract JSON from response"), none, []⟩
    else
      match jsonParse js with
      | some v => Except.ok v
      | none =>
        match jsonParse (repairJSON js) with
        | some v => Except.ok v
        | none => Except.error ⟨("Could not parse JSON from response"), none, []⟩

/-! ## Facts about whitespace, extraction and the bracket scan -/

theorem isWsChar_elim {c : Char} (h : isWsChar c = true) :
    c = ' ' ∨ c = '\t' ∨ c = '\n' ∨ c = '\r' := by
  simp only [isWsChar, Bool.or_eq_true, beq_iff_eq] at h
  tauto

theorem skipWs_ws_append {w : List Char} (hw : ∀ c ∈ w, isWsChar c = true)
    (t : List Char) : skipWs (w ++ t) = skipWs t := by
  induction w with
  | nil => rfl
  | cons c cs ih =>
    have hc : isWsChar c = true := hw c (by simp)
    simp only [List.cons_append, skipWs, hc, if_true]
    exact ih (fun x hx => hw x (by simp [hx]))

theorem dropUntilChar_ws_append {tgt : Char} {w : List Char}
    (hw : ∀ c ∈ w, isWsChar c = true) (htgt : isWsChar tgt = false)
    (t : List Char) : dropUntilChar tgt (w ++ t) = dropUntilChar tgt t := by
  induction w with
  | nil => rfl
  | cons c cs ih =>
    have hc : isWsChar c = true := hw c (by simp)
    have hne : (c == tgt) = false := by
      rcases isWsChar_elim hc with h | h | h | h <;> subst h <;>
        simp only [beq_eq_false_iff_ne, ne_eq] <;> intro he <;>
        rw [← he] at htgt <;> simp_all [isWsChar]
    simp only [List.cons_append, dropUntilChar, hne, Bool.false_eq_true, if_false]
    exact ih (fun x hx => hw x (by simp [hx]))

theorem dropUntilChar_cons_self (tgt : Char) (rest : List Char) :
    dropUntilChar tgt (tgt :: rest) = some (tgt :: rest) := by
  simp [dropUntilChar]

theorem braceMatch_decomp {w1 w2 b : List Char}
    (hw1 : ∀ c ∈ w1, isWsChar c = true) (hw2 : ∀ c ∈ w2, isWsChar c = true)
    (hb1 : ∃ t, b = '\x7b' :: t) (hb2 : ∃ t, b = t ++ ['\x7d']) :
    braceMatch (String.mk (w1 ++ b ++ w2)) = some (String.mk b) := by
  obtain ⟨t1, ht1⟩ := hb1
  obtain ⟨t2, ht2⟩ := hb2
  have hws : ∀ c ∈ w2.reverse, isWsChar c = true := by
    intro c hc
    exact hw2 c (List.mem_reverse.mp hc)
  unfold braceMatch
  have e1 : dropUntilChar '\x7b' ((w1 ++ b ++ w2) : List Char) = some (b ++ w2) := by
    rw [List.append_assoc, dropUntilChar_ws_append hw1 (by decide)]
    rw [ht1]
    exact dropUntilChar_cons_self _ _
  have e2 : dropUntilChar '\x7d' (b ++ w2).reverse = some b.reverse := by
    rw [List.reverse_append, dropUntilChar_ws_append hws (by decide)]
    rw [ht2, List.reverse_append]
    exact dropUntilChar_cons_self _ _
  simp only [e1, e2, List.reverse_reverse]

theorem fenceMatch_eq_none {s : String}
    (h : findSub ['`', '`', '`'] s.data = none) : fenceMatch s = none := by
  have h1 : ∀ i ∈ List.range (s.data.length + 1),
      ¬ isPre ['`', '`', '`'] (s.data.drop i) = true :=
    List.find?_eq_none.mp h
  have h3 : ∀ (g : Nat → List Char),
      (List.range (s.data.length + 1)).find?
        (fun i => isPre ['`', '`', '`'] (s.data.drop i)
          && (findSub ['`', '`', '`'] (g i)).isSome) = none := by
    intro g
    rw [List.find?_eq_none]
    intro i hi
    have := h1 i hi
    simp_all
  simp only [fenceMatch]
  rw [h3 (fun i => (s.data.drop i).drop 3)]

theorem str_ext {a b : String} (h : a.data = b.data) : a = b := by
  cases a
  cases b
  exact congrArg String.mk h

/-- C1 (amended): for every valid JSON string made of optional whitespace
around an object body b (which itself parses), with no code fence in the
text, extractJSON selects exactly b and returns its parsed value directly,
invoking no repair. -/
theorem extractJSON_valid_object_spec (w1 w2 b : List Char) (v : Json)
    (hw1 : ∀ c ∈ w1, isWsChar c = true)
    (hw2 : ∀ c ∈ w2, isWsChar c = true)
    (hb1 : ∃ t, b = '\x7b' :: t)
    (hb2 : ∃ t, b = t ++ ['\x7d'])
    (hparse : jsonParse (String.mk b) = some v)
    (hnf : findSub ['`', '`', '`'] (w1 ++ b ++ w2) = none) :
    extractCandidate (String.mk (w1 ++ b ++ w2)) = some (String.mk b)
    ∧ extractJSON (String.mk (w1 ++ b ++ w2)) = Except.ok v := by
  have hnf2 : findSub ['`', '`', '`'] ((String.mk (w1 ++ b ++ w2)).data) = none := hnf
  have hcand : extractCandidate (String.mk (w1 ++ b ++ w2)) = some (String.mk b) := by
    simp only [extractCandidate, fenceMatch_eq_none hnf2,
      braceMatch_decomp hw1 hw2 hb1 hb2]
  refine ⟨hcand, ?_⟩
  have hne : (String.mk b).isEmpty = false := by
    rcases hb1 with ⟨t1, rfl⟩
    cases hfe : (String.mk ('\x7b' :: t1)).isEmpty with
    | false => rfl
    | true =>
      have h9 := (String.isEmpty_iff _).mp hfe
      have h10 : ('\x7b' :: t1) = ("" : String).data := congrArg String.data h9
      have h11 : ("" : String).data = [] := rfl
      rw [h11] at h10
      exact absurd h10 (by simp)
  have hcand2 : extractCandidate (String.mk (w1 ++ (b ++ w2))) = some (String.mk b) := by
    rw [← List.append_assoc]
    exact hcand
  simp [extractJSON, hcand2, hne, hparse]

/-- C1 (counterexample): the string [1,2,3] is valid JSON, but extractJSON
throws instead of returning its value, because only brace-delimited spans
are ever extracted. -/
theorem extractJSON_valid_array_counterexample :
    jsonParse ("[1,2,3]")
        = some (Json.arr [Json.num ['1'], Json.num ['2'], Json.num ['3']])
    ∧ extractJSON ("[1,2,3]")
        = Except.error ⟨("Could not extract JSON from response"), none, []⟩ :=
  ⟨rfl, rfl⟩

/-- C1 (witness): a concrete valid object document handled correctly. -/
theorem extractJSON_valid_object_witness :
    extractCandidate (String.mk ([' ']
        ++ ['\x7b', '"', 'a', '"', ':', '1', '\x7d'] ++ ['\n']))
      = some (String.mk ['\x7b', '"', 'a', '"', ':', '1', '\x7d'])
    ∧ extractJSON (String.mk ([' ']
        ++ ['\x7b', '"', 'a', '"', ':', '1', '\x7d'] ++ ['\n']))
      = Except.ok (Json.obj [(['a'], Json.num ['1'])]) :=
  extractJSON_valid_object_spec [' '] ['\n']
    ['\x7b', '"', 'a', '"', ':', '1', '\x7d'] (Json.obj [(['a'], Json.num ['1'])])
    (by decide) (by decide)
    ⟨['"', 'a', '"', ':', '1', '\x7d'], rfl⟩
    ⟨['\x7b', '"', 'a', '"', ':', '1'], rfl⟩
    rfl (by decide)

theorem scanStep_stack_closers {st : ScanSt}
    (h : ∀ x ∈ st.stack, x = '\x7d' ∨ x = ']') (c : Char) :
    ∀ x ∈ (scanStep st c).stack, x = '\x7d' ∨ x = ']' := by
  intro x hx
  unfold scanStep at hx
  split_ifs at hx
  case _ => exact h x hx
  case _ => exact h x hx
  case _ => exact h x hx
  case _ =>
    rcases List.mem_cons.mp hx with rfl | hx2
    · exact Or.inl rfl
    · exact h x hx2
  case _ =>
    rcases List.mem_cons.mp hx with rfl | hx2
    · exact Or.inr rfl
    · exact h x hx2
  case _ =>
    rcases hs : st.stack with _ | ⟨top, rest⟩ <;> rw [hs] at hx
    · exact h x (hs ▸ hx)
    · by_cases ht : (top == c) = true
      · simp only [ht, if_true] at hx
        exact h x (hs ▸ List.mem_cons_of_mem top hx)
      · simp only [ht, Bool.false_eq_true, if_false] at hx
        exact h x hx
  case _ => exact h x hx
  case _ => exact h x hx

theorem foldl_scanStep_closers_inv :
    ∀ (l : List Char) (st : ScanSt),
      (∀ x ∈ st.stack, x = '\x7d' ∨ x = ']') →
      ∀ x ∈ (l.foldl scanStep st).stack, x = '\x7d' ∨ x = ']' := by
  intro l
  induction l with
  | nil => intro st h; exact h
  | cons c cs ih =>
    intro st h
    exact ih (scanStep st c) (scanStep_stack_closers h c)

theorem scanChars_closers (l : List Char) :
    ∀ x ∈ (scanChars l).stack, x = '\x7d' ∨ x = ']' :=
  foldl_scanStep_closers_inv l ⟨[], false, false⟩ (by simp)

/-- C10: closeOpenBrackets only appends: the output is the input followed by
an optional closing quote (when the scan ends inside a string) and then the
pending closers of the scan stack, every one of which is a closing brace or
bracket. No existing character is removed or changed. -/
theorem closeOpenBrackets_append_only (s : String) :
    closeOpenBrackets s
        = s ++ ((if (scanChars s.data).inString then ("\"") else (""))
            ++ String.mk (scanChars s.data).stack)
    ∧ ∀ x ∈ (scanChars s.data).stack, x = '\x7d' ∨ x = ']' := by
  refine ⟨?_, scanChars_closers s.data⟩
  apply str_ext
  simp only [closeOpenBrackets, String.data_append]
  cases h : (scanChars s.data).inString <;>
    simp [h, String.data_append]

/-- Folding the scan over exactly the pending closers empties the stack. -/
theorem foldl_scanStep_drain :
    ∀ (σ : List Char) (st : ScanSt),
      st.inString = false → st.escapeNext = false →
      (∀ x ∈ σ, x = '\x7d' ∨ x = ']') → st.stack = σ →
      σ.foldl scanStep st = ⟨[], false, false⟩ := by
  intro σ
  induction σ with
  | nil =>
    intro st h1 h2 _ h4
    cases st
    simp_all
  | cons c σ2 ih =>
    intro st h1 h2 h3 h4
    have hstep : scanStep st c = { st with stack := σ2 } := by
      rcases h3 c (by simp) with rfl | rfl <;>
        simp [scanStep, h1, h2, h4]
    have h5 : (scanStep st c).inString = false := by rw [hstep]; exact h1
    have h6 : (scanStep st c).escapeNext = false := by rw [hstep]; exact h2
    have h7 : (scanStep st c).stack = σ2 := by rw [hstep]
    simp only [List.foldl_cons]
    exact ih (scanStep st c) h5 h6 (fun x hx => h3 x (by simp [hx])) h7

/-- C2 (amended): when the scan of the input ends outside any string literal
(and not in a pending escape), the close-brackets repair step produces a
string whose scan ends fully balanced: every bracket or brace opened outside
a string is matched, and no string is left open. -/
theorem closeOpenBrackets_balances (s : String)
    (h1 : (scanChars s.data).inString = false)
    (h2 : (scanChars s.data).escapeNext = false) :
    scanChars (closeOpenBrackets s).data = ⟨[], false, false⟩ := by
  have hdata : (closeOpenBrackets s).data = s.data ++ (scanChars s.data).stack := by
    simp [closeOpenBrackets, h1, String.data_append]
  rw [hdata]
  unfold scanChars
  rw [List.foldl_append]
  exact foldl_scanStep_drain _ _ h1 h2 (scanChars_closers s.data) rfl

/-- C2 (amended, witness): the truncated object text from the counterexample
satisfies the hypotheses and is balanced after repair. -/
theorem closeOpenBrackets_balances_witness :
    scanChars (closeOpenBrackets ("\x7b\"a\": 1, ")).data = ⟨[], false, false⟩ :=
  closeOpenBrackets_balances ("\x7b\"a\": 1, ") (by decide) (by decide)

/-- C2 (counterexample): take the valid JSON document with keys a and b and
truncate it at character 9, strictly inside the object, outside any string,
right after the comma. The repair pass appends the closing brace but the
comma survives every pass, so the repaired text has a trailing comma and
fails to parse. -/
theorem repairJSON_truncation_counterexample :
    jsonParse ("\x7b\"a\": 1, \"b\": 2\x7d")
        = some (Json.obj [(['a'], Json.num ['1']), (['b'], Json.num ['2'])])
    ∧ ("\x7b\"a\": 1, ") ++ ("\"b\": 2\x7d") = ("\x7b\"a\": 1, \"b\": 2\x7d")
    ∧ repairJSON ("\x7b\"a\": 1, ") = ("\x7b\"a\": 1, \x7d")
    ∧ jsonParse (repairJSON ("\x7b\"a\": 1, ")) = none :=
  ⟨rfl, rfl, rfl, rfl⟩

/-! ## Cost tracking -/

/-- One per-call cost record, as pushed onto CostTracker.calls. -/
structure CostRecord where
  timestamp : String
  provider : String
  model : String
  inputTokens : Nat
  outputTokens : Nat
  cost : ℚ
deriving Repr, DecidableEq

/-- The cost tracker state: budget ceiling, running total, per-provider
breakdown (an insertion-ordered map) and the append-only call list. -/
structure CostTracker where
  maxCost : ℚ
  totalCost : ℚ
  breakdown : List (String × ℚ)
  calls : List CostRecord
deriving Repr, DecidableEq

/-- Constructor state: new CostTracker(maxCost). -/
def CostTracker.init (maxCost : ℚ) : CostTracker :=
  ⟨maxCost, 0, [], []⟩

/-- Approximate rates per 1K tokens, with the default fallback for unknown
provider or model. -/
def getRates (provider model : String) : ℚ × ℚ :=
  if provider == ("anthropic") then
    if model == ("claude-sonnet-4-20250514") then (3 / 1000, 15 / 1000)
    else if model == ("claude-3-5-sonnet-20241022") then (3 / 1000, 15 / 1000)
    else (1 / 100, 3 / 100)
  else if provider == ("openai") then
    if model == ("gpt-5.2") then (1 / 100, 3 / 100)
    else if model == ("gpt-4o") then (5 / 1000, 15 / 1000)
    else if model == ("gpt-4-turbo") then (1 / 100, 3 / 100)
    else (1 / 100, 3 / 100)
  else if provider == ("google") then
    if model == ("gemini-2.0-flash") then (75 / 1000000, 3 / 10000)
    else if model == ("gemini-3-pro-image-preview") then (25 / 100000, 1 / 1000)
    else (1 / 100, 3 / 100)
  else (1 / 100, 3 / 100)

/-- The cost addUsage computes for one call. -/
def usageCost (provider model : String) (inputTokens outputTokens : Nat) : ℚ :=
  (inputTokens : ℚ) / 1000 * (getRates provider model).1
    + (outputTokens : ℚ) / 1000 * (getRates provider model).2

/-- Model of breakdown[provider] = (breakdown[provider] or 0) + cost on a
JavaScript object: update the existing key in place or append a new one. -/
def bump : List (String × ℚ) → String → ℚ → List (String × ℚ)
  | [], p, c => [(p, c)]
  | (k, v) :: rest, p, c =>
    if k == p then (k, v + c) :: rest else (k, v) :: bump rest p c

/-- Add usage for a provider/model call. Returns the updated tracker, the
cost, and whether the CostLimitError is raised; mutation happens before the
over-budget check, exactly as in the source. -/
def CostTracker.addUsage (t : CostTracker) (provider model : String)
    (inputTokens outputTokens : Nat) (timestamp : String) :
    CostTracker × ℚ × Bool :=
  let cost := usageCost provider model inputTokens outputTokens
  let t2 : CostTracker :=
    ⟨t.maxCost, t.totalCost + cost, bump t.breakdown provider cost,
      t.calls ++ [⟨timestamp, provider, model, inputTokens, outputTokens, cost⟩]⟩
  (t2, cost, decide (t2.totalCost > t2.maxCost))

/-- Arguments of one addUsage call. -/
structure CallArgs where
  provider : String
  model : String
  inputTokens : Nat
  outputTokens : Nat
  timestamp : String
deriving Repr, DecidableEq

def costOf (a : CallArgs) : ℚ :=
  usageCost a.provider a.model a.inputTokens a.outputTokens

/-- Run a sequence of addUsage calls, stopping at the first CostLimitError;
returns the tracker at that moment and the 1-based index of the raising
call, if any. -/
def runCalls : List CallArgs → CostTracker → CostTracker × Option Nat
  | [], t => (t, none)
  | a :: as, t =>
    let r := t.addUsage a.provider a.model a.inputTokens a.outputTokens a.timestamp
    if r.2.2 = true then (r.1, some 1)
    else ((runCalls as r.1).1, (runCalls as r.1).2.map (fun n => n + 1))

/-- Cumulative cost of the first k calls of a sequence. -/
def cumCost (cs : List CallArgs) (k : Nat) : ℚ :=
  ((cs.take k).map costOf).sum

theorem getRates_nonneg (provider model : String) :
    0 ≤ (getRates provider model).1 ∧ 0 ≤ (getRates provider model).2 := by
  unfold getRates
  split_ifs <;> constructor <;> norm_num

theorem usageCost_nonneg (provider model : String) (i o : Nat) :
    0 ≤ usageCost provider model i o := by
  rcases getRates_nonneg provider model with ⟨h1, h2⟩
  have hi : (0 : ℚ) ≤ (i : ℚ) / 1000 := by positivity
  have ho : (0 : ℚ) ≤ (o : ℚ) / 1000 := by positivity
  exact add_nonneg (mul_nonneg hi h1) (mul_nonneg ho h2)

theorem cumCost_cons (a : CallArgs) (as : List CallArgs) (k : Nat) :
    cumCost (a :: as) (k + 1) = costOf a + cumCost as k := by
  simp [cumCost]

theorem cumCost_one_le (a : CallArgs) (as : List CallArgs) {k : Nat}
    (hk : 1 ≤ k) : costOf a ≤ cumCost (a :: as) k := by
  obtain ⟨k2, rfl⟩ := Nat.exists_eq_add_of_le hk
  rw [Nat.add_comm, cumCost_cons]
  have : 0 ≤ cumCost as k2 := by
    unfold cumCost
    apply List.sum_nonneg
    intro x hx
    obtain ⟨y, _, rfl⟩ := List.mem_map.mp hx
    exact usageCost_nonneg _ _ _ _
  linarith

theorem addUsage_eq (t : CostTracker) (p m ts : String) (i o : Nat) :
    t.addUsage p m i o ts =
      (⟨t.maxCost, t.totalCost + usageCost p m i o,
          bump t.breakdown p (usageCost p m i o),
          t.calls ++ [⟨ts, p, m, i, o, usageCost p m i o⟩]⟩,
        usageCost p m i o,
        decide (t.totalCost + usageCost p m i o > t.maxCost)) := rfl

theorem runCalls_crossing :
    ∀ (cs : List CallArgs) (t : CostTracker) (N : Nat),
      t.maxCost = 1 → 1 ≤ N → N ≤ cs.length →
      t.totalCost + cumCost cs N > 1 →
      t.totalCost + cumCost cs (N - 1) ≤ 1 →
      (runCalls cs t).2 = some N
      ∧ (runCalls cs t).1.totalCost = t.totalCost + cumCost cs N
      ∧ (runCalls cs t).1.calls.length = t.calls.length + N := by
  intro cs
  induction cs with
  | nil =>
    intro t N _ h2 h3 _ _
    simp at h3
    omega
  | cons a as ih =>
    intro t N h1 h2 h3 h4 h5
    match N, h2 with
    | 1, _ =>
      have hc1 : cumCost (a :: as) 1 = costOf a := by
        simp [cumCost]
      rw [hc1] at h4
      simp only [costOf] at h4
      have hraise : decide (t.totalCost
          + usageCost a.provider a.model a.inputTokens a.outputTokens > t.maxCost)
            = true := by
        rw [h1]
        exact decide_eq_true h4
      refine ⟨?_, ?_, ?_⟩ <;>
        simp only [runCalls, addUsage_eq, hraise, if_true] <;>
        simp [hc1, costOf]
    | (N2 + 2), _ =>
      have h5b : t.totalCost + cumCost (a :: as) (N2 + 1) ≤ 1 := by
        simpa using h5
      have hcons4 := cumCost_cons a as (N2 + 1)
      have hcons5 := cumCost_cons a as N2
      simp only [costOf] at hcons4 hcons5
      have hle : t.totalCost
          + usageCost a.provider a.model a.inputTokens a.outputTokens ≤ 1 := by
        have hx := cumCost_one_le a as (k := N2 + 1) (by omega)
        simp only [costOf] at hx
        linarith
      have hnoraise : decide (t.totalCost
          + usageCost a.provider a.model a.inputTokens a.outputTokens > t.maxCost)
            = false := by
        rw [h1]
        simp only [gt_iff_lt, decide_eq_false_iff_not, not_lt]
        linarith
      have hih := ih
        ⟨t.maxCost, t.totalCost + usageCost a.provider a.model a.inputTokens a.outputTokens,
          bump t.breakdown a.provider
            (usageCost a.provider a.model a.inputTokens a.outputTokens),
          t.calls ++ [⟨a.timestamp, a.provider, a.model, a.inputTokens, a.outputTokens,
            usageCost a.provider a.model a.inputTokens a.outputTokens⟩]⟩
        (N2 + 1) h1 (by omega) (by simpa using h3)
        (by show t.totalCost + usageCost a.provider a.model a.inputTokens a.outputTokens
              + cumCost as (N2 + 1) > 1
            linarith [h4, hcons4])
        (by show t.totalCost + usageCost a.provider a.model a.inputTokens a.outputTokens
              + cumCost as (N2 + 1 - 1) ≤ 1
            simp only [Nat.add_sub_cancel]
            linarith [h5b, hcons5])
      refine ⟨?_, ?_, ?_⟩ <;>
        simp only [runCalls, addUsage_eq, hnoraise, Bool.false_eq_true, if_false]
      · simp [hih.1]
      · rw [hih.2.1, hcons4]
        show t.totalCost + usageCost a.provider a.model a.inputTokens a.outputTokens
            + cumCost as (N2 + 1)
          = t.totalCost + (usageCost a.provider a.model a.inputTokens a.outputTokens
            + cumCost as (N2 + 1))
        ring
      · rw [hih.2.2]
        simp only [List.length_append, List.length_cons, List.length_nil]
        omega

/-- C3: with the ceiling at one dollar, a sequence of calls whose cumulative
cost first exceeds one dollar on call N raises the cost-limit error on
exactly call N, with the crossing call's cost and record already included in
the tracker state at that moment. -/
theorem costTracker_limit_on_crossing_call (cs : List CallArgs) (N : Nat)
    (h1 : 1 ≤ N) (h2 : N ≤ cs.length)
    (h3 : cumCost cs N > 1) (h4 : cumCost cs (N - 1) ≤ 1) :
    (runCalls cs (CostTracker.init 1)).2 = some N
    ∧ (runCalls cs (CostTracker.init 1)).1.totalCost = cumCost cs N
    ∧ (runCalls cs (CostTracker.init 1)).1.calls.length = N := by
  have hmain := runCalls_crossing cs (CostTracker.init 1) N rfl h1 h2
    (by simpa [CostTracker.init] using h3)
    (by simpa [CostTracker.init] using h4)
  refine ⟨hmain.1, ?_, ?_⟩
  · rw [hmain.2.1]
    simp [CostTracker.init]
  · rw [hmain.2.2]
    simp [CostTracker.init]

/-- C3 (witness): two calls of sixty cents each cross the one-dollar ceiling
on the second call. -/
theorem costTracker_limit_witness :
    (runCalls [⟨("openai"), ("gpt-4-turbo"), 30000, 10000, ("t1")⟩,
        ⟨("openai"), ("gpt-4-turbo"), 30000, 10000, ("t2")⟩]
      (CostTracker.init 1)).2 = some 2
    ∧ (runCalls [⟨("openai"), ("gpt-4-turbo"), 30000, 10000, ("t1")⟩,
        ⟨("openai"), ("gpt-4-turbo"), 30000, 10000, ("t2")⟩]
      (CostTracker.init 1)).1.totalCost
        = cumCost [⟨("openai"), ("gpt-4-turbo"), 30000, 10000, ("t1")⟩,
            ⟨("openai"), ("gpt-4-turbo"), 30000, 10000, ("t2")⟩] 2
    ∧ (runCalls [⟨("openai"), ("gpt-4-turbo"), 30000, 10000, ("t1")⟩,
        ⟨("openai"), ("gpt-4-turbo"), 30000, 10000, ("t2")⟩]
      (CostTracker.init 1)).1.calls.length = 2 :=
  costTracker_limit_on_crossing_call _ 2 (by decide) (by decide)
    (by have hr : getRates ("openai") ("gpt-4-turbo") = (1 / 100, 3 / 100) := by
          simp [getRates]
        simp [cumCost, costOf, usageCost, hr]
        norm_num)
    (by have hr : getRates ("openai") ("gpt-4-turbo") = (1 / 100, 3 / 100) := by
          simp [getRates]
        simp [cumCost, costOf, usageCost, hr]
        norm_num)

/-- Sum of the per-provider breakdown values. -/
def breakdownSum (l : List (String × ℚ)) : ℚ :=
  (l.map (fun p => p.2)).sum

theorem bump_sum (l : List (String × ℚ)) (p : String) (c : ℚ) :
    breakdownSum (bump l p c) = breakdownSum l + c := by
  induction l with
  | nil => simp [bump, breakdownSum]
  | cons kv rest ih =>
    obtain ⟨k, v⟩ := kv
    by_cases h : (k == p) = true
    · simp [bump, h, breakdownSum]
      ring
    · simp only [breakdownSum] at ih
      simp [bump, h, breakdownSum, ih]
      ring

/-- The bookkeeping invariant of the cost tracker. -/
def CostTracker.Inv (t : CostTracker) : Prop :=
  t.totalCost = (t.calls.map CostRecord.cost).sum
  ∧ breakdownSum t.breakdown = t.totalCost

theorem addUsage_inv {t : CostTracker} (h : t.Inv) (p m ts : String) (i o : Nat) :
    ((t.addUsage p m i o ts).1).Inv := by
  obtain ⟨h1, h2⟩ := h
  constructor
  · simp [CostTracker.addUsage, h1]
  · simp [CostTracker.addUsage, bump_sum, h2]

theorem runCalls_inv :
    ∀ (cs : List CallArgs) (t : CostTracker), t.Inv → ((runCalls cs t).1).Inv := by
  intro cs
  induction cs with
  | nil => intro t h; exact h
  | cons a as ih =>
    intro t h
    simp only [runCalls]
    split
    · exact addUsage_inv h _ _ _ _ _
    · exact ih _ (addUsage_inv h _ _ _ _ _)

/-- C9: the cost tracker invariant. addUsage appends exactly one record (the
crossing call included, since the record is pushed before the ceiling
check), and after any run of calls, including one stopped by the cost-limit
error, the total equals the sum of the recorded per-call costs and the
per-provider breakdown sums to the total. -/
theorem costTracker_invariant :
    (∀ (t : CostTracker) (p m ts : String) (i o : Nat),
        (t.addUsage p m i o ts).1.calls
          = t.calls ++ [⟨ts, p, m, i, o, usageCost p m i o⟩])
    ∧ (∀ (m : ℚ) (cs : List CallArgs),
        (runCalls cs (CostTracker.init m)).1.totalCost
          = (((runCalls cs (CostTracker.init m)).1.calls).map CostRecord.cost).sum
        ∧ breakdownSum ((runCalls cs (CostTracker.init m)).1.breakdown)
          = (runCalls cs (CostTracker.init m)).1.totalCost) := by
  constructor
  · intro t p m ts i o
    rfl
  · intro m cs
    exact runCalls_inv cs (CostTracker.init m) ⟨by simp [CostTracker.init], by
      simp [CostTracker.init, breakdownSum]⟩

/-! ## Retry / backoff executor -/

/-- Model of String.prototype.toLowerCase for the ASCII messages compared. -/
def lowerAscii (s : String) : String :=
  String.mk (s.data.map Char.toLower)

/-- Model of String.prototype.includes. -/
def containsSub (hay needle : List Char) : Bool :=
  (List.range (hay.length + 1)).any (fun i => isPre needle (hay.drop i))

def retryableCodes : List String :=
  [("rate_limit_exceeded"), ("server_error"), ("timeout"), ("ECONNRESET"),
    ("ETIMEDOUT"), ("ENOTFOUND"), ("overloaded_error"), ("service_unavailable")]

def retryableMessages : List String :=
  [("timeout"), ("rate limit"), ("overloaded"), ("503"), ("502"), ("500"),
    ("temporarily unavailable")]

/-- Determine if an error is retryable: a truthy code on the allow-list, or
a lower-cased message containing one of the retryable substrings. -/
def isRetryable (e : AgentErr) : Bool :=
  let code := e.code.getD ("")
  if code != ("") && retryableCodes.contains code then true
  else retryableMessages.any (fun m => containsSub (lowerAscii e.message).data m.data)

/-- Outcome of withRetry: success, an immediate non-retryable failure
wrapped as an AgentError, or retry exhaustion carrying the attempt count
and last underlying error. -/
inductive RetryResult (α : Type) where
  | ok (a : α)
  | fatal (e : AgentError)
  | exhausted (attempts : Nat) (last : Option AgentErr)
deriving Repr, DecidableEq

/-- The attempt loop of withRetry over the list of remaining attempt
numbers. The operation is modelled as a function from the attempt number to
that attempt's outcome. Returns the result, the list of backoff delays
slept (in milliseconds, in order), and the number of invocations made. -/
def withRetryGo {α : Type} (op : Nat → Except AgentErr α) (retryAttempts : Nat)
    (retryDelay : ℚ) (context : List (String × String)) :
    Option AgentErr → List Nat → RetryResult α × List ℚ × Nat
  | last, [] => (RetryResult.exhausted retryAttempts last, [], 0)
  | _, a :: rest =>
    match op a with
    | Except.ok v => (RetryResult.ok v, [], 1)
    | Except.error e =>
      if isRetryable e then
        match rest with
        | [] => (RetryResult.exhausted retryAttempts (some e), [], 1)
        | b :: rest2 =>
          let r := withRetryGo op retryAttempts retryDelay context (some e) (b :: rest2)
          (r.1, retryDelay * 2 ^ (a - 1) :: r.2.1, r.2.2 + 1)
      else
        (RetryResult.fatal ⟨("Non-retryable error: ") ++ e.message, some e, context⟩,
          [], 1)

/-- Execute an operation with retry logic and exponential backoff. -/
def withRetry {α : Type} (op : Nat → Except AgentErr α) (retryAttempts : Nat)
    (retryDelay : ℚ) (context : List (String × String)) :
    RetryResult α × List ℚ × Nat :=
  withRetryGo op retryAttempts retryDelay context none (List.range' 1 retryAttempts)

/-- C4: an operation failing retryably on attempts 1 and 2 and succeeding on
attempt 3, run with retryAttempts = 3, returns the success, sleeps exactly
two delays of retryDelay times 2 to the (attempt - 1) (pure exponential
backoff, no jitter), and invokes the operation three times. -/
theorem withRetry_two_failures_then_success {α : Type} (op : Nat → Except AgentErr α)
    (e1 e2 : AgentErr) (a : α) (d : ℚ) (ctx : List (String × String))
    (h1 : op 1 = Except.error e1) (h2 : op 2 = Except.error e2)
    (h3 : op 3 = Except.ok a)
    (hr1 : isRetryable e1 = true) (hr2 : isRetryable e2 = true) :
    withRetry op 3 d ctx
      = (RetryResult.ok a, [d * 2 ^ (0 : Nat), d * 2 ^ (1 : Nat)], 3) := by
  have hrange : List.range' 1 3 = [1, 2, 3] := rfl
  simp [withRetry, hrange, withRetryGo, h1, h2, h3, hr1, hr2]

/-- C4 (witness): a concrete operation failing with a timeout code twice. -/
theorem withRetry_two_failures_witness :
    withRetry
      (fun n => if n = 1 then Except.error ⟨some ("timeout"), ("request timeout")⟩
        else if n = 2 then Except.error ⟨some ("server_error"), ("boom 500")⟩
        else Except.ok (42 : Nat))
      3 1000 []
      = (RetryResult.ok 42, [1000 * 2 ^ (0 : Nat), 1000 * 2 ^ (1 : Nat)], 3) :=
  withRetry_two_failures_then_success _ _ _ _ _ _ rfl rfl rfl (by decide) (by decide)

/-- C5: an operation that fails with a non-retryable error is invoked exactly
once: withRetry sleeps no delay and raises immediately, wrapping the original
error and context in an AgentError. -/
theorem withRetry_non_retryable_single_call {α : Type} (op : Nat → Except AgentErr α)
    (e : AgentErr) (ra : Nat) (d : ℚ) (ctx : List (String × String))
    (h1 : op 1 = Except.error e) (hr : isRetryable e = false) (hra : 1 ≤ ra) :
    withRetry op ra d ctx
      = (RetryResult.fatal ⟨("Non-retryable error: ") ++ e.message, some e, ctx⟩,
          [], 1) := by
  obtain ⟨k, rfl⟩ : ∃ k, ra = k + 1 := ⟨ra - 1, by omega⟩
  have hrange : List.range' 1 (k + 1) = 1 :: List.range' 2 k := by
    simp [List.range'_succ]
  simp [withRetry, hrange, withRetryGo, h1, hr]

/-- C5 (witness): a concrete non-retryable failure. -/
theorem withRetry_non_retryable_witness :
    withRetry (α := Nat)
      (fun _ => Except.error (⟨some ("invalid_request"), ("bad api key")⟩ : AgentErr))
      3 1000 []
      = (RetryResult.fatal
          ⟨("Non-retryable error: ") ++ ("bad api key"), some ⟨some ("invalid_request"), ("bad api key")⟩, []⟩,
          [], 1) :=
  withRetry_non_retryable_single_call (α := Nat) _ _ 3 1000 [] rfl (by decide) (by decide)

/-! ## Image-generation rate limiting and backoff -/

/-- The image-generation rate limiting configuration. -/
structure ImageConfig where
  minDelayBetweenCalls : ℚ
  maxRetries : Nat
  baseBackoffMs : ℚ
  maxBackoffMs : ℚ
  jitterFactor : ℚ
deriving Repr, DecidableEq

def IMAGE_GENERATION_CONFIG : ImageConfig :=
  ⟨3000, 5, 3000, 60000, 1 / 5⟩

/-- Calculate backoff with jitter for retries: capped exponential backoff
plus a random jitter fraction. The argument r models the Math.random draw
in the interval from 0 to 1. Defined in the image generator but, as the
theorems below show, never reached by its retry path. -/
def calculateBackoffWithJitter (cfg : ImageConfig) (attempt : Nat) (r : ℚ) : ℤ :=
  let baseDelay := cfg.baseBackoffMs * 2 ^ (attempt - 1)
  let cappedDelay := min baseDelay cfg.maxBackoffMs
  let jitter := cappedDelay * cfg.jitterFactor * r
  ⌊cappedDelay + jitter⌋

/-- The retry wrapper callNanoBanana actually runs: the base-agent withRetry
with retryAttempts = maxRetries and retryDelay = baseBackoffMs, as set in
the image generator's constructor. -/
def nanoBananaWithRetry {α : Type} (cfg : ImageConfig)
    (op : Nat → Except AgentErr α) (ctx : List (String × String)) :
    RetryResult α × List ℚ × Nat :=
  withRetry op cfg.maxRetries cfg.baseBackoffMs ctx


theorem withRetryGo_nil {α : Type} (op : Nat → Except AgentErr α) (ra : Nat) (d : ℚ)
    (ctx : List (String × String)) (last : Option AgentErr) :
    withRetryGo op ra d ctx last ([] : List Nat)
      = (RetryResult.exhausted ra last, [], 0) := rfl

theorem withRetryGo_ok {α : Type} {op : Nat → Except AgentErr α} {a : Nat} {v : α}
    (h : op a = Except.ok v) (ra : Nat) (d : ℚ) (ctx : List (String × String))
    (last : Option AgentErr) (rest : List Nat) :
    withRetryGo op ra d ctx last (a :: rest) = (RetryResult.ok v, [], 1) := by
  unfold withRetryGo
  rw [h]

theorem withRetryGo_last {α : Type} {op : Nat → Except AgentErr α} {a : Nat}
    {e : AgentErr} (h : op a = Except.error e) (hre : isRetryable e = true)
    (ra : Nat) (d : ℚ) (ctx : List (String × String)) (last : Option AgentErr) :
    withRetryGo op ra d ctx last [a]
      = (RetryResult.exhausted ra (some e), [], 1) := by
  unfold withRetryGo
  rw [h]
  simp [hre]

theorem withRetryGo_step {α : Type} {op : Nat → Except AgentErr α} {a : Nat}
    {e : AgentErr} (h : op a = Except.error e) (hre : isRetryable e = true)
    (ra : Nat) (d : ℚ) (ctx : List (String × String)) (last : Option AgentErr)
    (b : Nat) (rest2 : List Nat) :
    withRetryGo op ra d ctx last (a :: b :: rest2)
      = ((withRetryGo op ra d ctx (some e) (b :: rest2)).1,
          d * 2 ^ (a - 1) :: (withRetryGo op ra d ctx (some e) (b :: rest2)).2.1,
          (withRetryGo op ra d ctx (some e) (b :: rest2)).2.2 + 1) := by
  conv_lhs => rw [withRetryGo]
  rw [h]
  simp [hre]

theorem withRetryGo_delays_shape {α : Type} :
    ∀ (k s : Nat) (op : Nat → Except AgentErr α) (ra : Nat) (d : ℚ)
      (ctx : List (String × String)) (last : Option AgentErr), 1 ≤ s →
      (withRetryGo op ra d ctx last (List.range' s k)).2.1
        = (List.range (withRetryGo op ra d ctx last (List.range' s k)).2.1.length).map
            (fun i => d * 2 ^ (s - 1 + i)) := by
  intro k
  induction k with
  | zero =>
    intro s op ra d ctx last _
    rw [show List.range' s 0 = ([] : List Nat) from rfl, withRetryGo_nil]
    simp
  | succ k2 ih =>
    intro s op ra d ctx last hs
    have expCons : ∀ (d : ℚ) (s n : Nat), 1 ≤ s →
        (List.range (n + 1)).map (fun i => d * 2 ^ (s - 1 + i))
          = d * 2 ^ (s - 1) :: (List.range n).map (fun i => d * 2 ^ (s + 1 - 1 + i)) := by
      intro d s n hs1
      rw [List.range_succ_eq_map, List.map_cons, List.map_map]
      refine congrArg₂ _ (by simp) ?_
      apply List.map_congr_left
      intro i _
      have he : s - 1 + Nat.succ i = s + 1 - 1 + i := by omega
      simp [Function.comp, he]
    rw [List.range'_succ]
    cases hop : op s with
    | ok v =>
      rw [withRetryGo_ok hop]
      simp
    | error e =>
      by_cases hre : isRetryable e = true
      · cases k2 with
        | zero =>
          rw [show List.range' (s + 1) 0 = ([] : List Nat) from rfl,
            withRetryGo_last hop hre]
          simp
        | succ k3 =>
          rw [List.range'_succ, withRetryGo_step hop hre, ← List.range'_succ]
          have ihs := ih (s + 1) op ra d ctx (some e) (by omega)
          simp only [List.length_cons]
          rw [expCons d s _ hs]
          exact congrArg₂ _ rfl ihs
      · unfold withRetryGo
        rw [hop]
        simp [hre]

/-- C6 (amended): the retry delays of the image-generation provider call are
those of the plain base-agent backoff with base baseBackoffMs: the n-th
delay slept is baseBackoffMs times 2 to the (n - 1), for every operation
and configuration; no cap, no jitter, and no dependence on any random draw.
calculateBackoffWithJitter is defined but does not enter this path, and the
minimum inter-call spacing is enforced once per image in the execute loop,
before the first attempt only. -/
theorem nanoBanana_delays_plain_backoff {α : Type} (cfg : ImageConfig)
    (op : Nat → Except AgentErr α) (ctx : List (String × String)) :
    (nanoBananaWithRetry cfg op ctx).2.1
      = (List.range (nanoBananaWithRetry cfg op ctx).2.1.length).map
          (fun i => cfg.baseBackoffMs * 2 ^ i) := by
  have h := withRetryGo_delays_shape cfg.maxRetries 1 op cfg.maxRetries
    cfg.baseBackoffMs ctx none (by omega)
  simp only [nanoBananaWithRetry, withRetry]
  rw [h]
  simp only [List.length_map, List.length_range]
  apply List.map_congr_left
  intro i _
  norm_num
/-- C6 (counterexample): run the image-generation retry path with the
supported configuration override maxRetries = 7 against a provider that
keeps failing retryably. The sixth delay slept is 96000 ms, yet even at
maximal jitter the claimed capped-and-jittered backoff for that attempt is
calculateBackoffWithJitter at attempt 6, namely 72000 ms: the actual delay
exceeds every delay the claim allows, so the image retry delays are not
capped jittered backoff. -/
theorem nanoBanana_delays_counterexample :
    (nanoBananaWithRetry { IMAGE_GENERATION_CONFIG with maxRetries := 7 }
        (fun _ => Except.error (⟨some ("timeout"), ("timeout")⟩ : AgentErr))
        (α := Nat) []).2.1
      = [3000, 6000, 12000, 24000, 48000, 96000]
    ∧ calculateBackoffWithJitter { IMAGE_GENERATION_CONFIG with maxRetries := 7 } 6 1
        = 72000
    ∧ ¬ ((96000 : ℚ) ≤ 72000) := by
  have hretry : isRetryable (⟨some ("timeout"), ("timeout")⟩ : AgentErr) = true := by
    decide
  refine ⟨?_, ?_, by norm_num⟩
  · have hrange : List.range' 1 7 = [1, 2, 3, 4, 5, 6, 7] := rfl
    simp [nanoBananaWithRetry, withRetry, IMAGE_GENERATION_CONFIG, hrange,
      withRetryGo, hretry]
    norm_num
  · simp [calculateBackoffWithJitter, IMAGE_GENERATION_CONFIG]
    norm_num [min_def]

/-! ## Output validation (synthesis output and deck config) -/

/-- The twelve slide types, in source order. -/
def SLIDE_TYPES : List String :=
  [("title"), ("purpose"), ("problem"), ("solution"), ("whyNow"), ("marketSize"),
    ("competition"), ("product"), ("businessModel"), ("traction"), ("team"), ("ask")]

/-- Is a number lexeme the number zero (sign and exponent notwithstanding)? -/
def numLexIsZero (l : List Char) : Bool :=
  ((l.takeWhile (fun c => !(c == 'e' || c == 'E'))).filter isDigitChar).all
    (fun c => c == '0')

/-- JavaScript truthiness of a JSON value. -/
def jsTruthy : Json → Bool
  | Json.null => false
  | Json.bool b => b
  | Json.num lex => !numLexIsZero lex
  | Json.str raw => !raw.isEmpty
  | Json.arr _ => true
  | Json.obj _ => true

/-- Property access on a parsed JSON value: the last member with the given
key (JSON.parse keeps the last duplicate), none on non-objects. -/
def lookupField (j : Json) (k : String) : Option Json :=
  match j with
  | Json.obj ms => (ms.reverse.find? (fun kv => kv.1 == k.data)).map (fun kv => kv.2)
  | _ => none

/-- Truthiness of output.company?.name. -/
def companyNameTruthy (company : Option Json) : Bool :=
  match company with
  | none => false
  | some cj =>
    match lookupField cj ("name") with
    | none => false
    | some nv => jsTruthy nv

/-- Does some slide carry the given type string? Models foundTypes.has. -/
def hasType (slides : List Json) (t : String) : Bool :=
  slides.any (fun s =>
    match lookupField s ("type") with
    | some (Json.str raw) => raw == t.data
    | _ => false)

/-- The parsed synthesis output, as far as its validator inspects it: the
company object and the slides array, each possibly absent. -/
structure SynthOutput where
  company : Option Json
  slides : Option (List Json)

/-- The parsed final deck configuration, as far as its validator inspects
it. -/
structure DeckConfig where
  company : Option Json
  design : Option Json
  slides : Option (List Json)

mutual

/-- Model of JSON.stringify on parsed values (raw lexemes re-emitted, no
added whitespace), used only to count TBD markers. -/
def serializeJson : Json → List Char
  | Json.null => ['n', 'u', 'l', 'l']
  | Json.bool true => ['t', 'r', 'u', 'e']
  | Json.bool false => ['f', 'a', 'l', 's', 'e']
  | Json.num lex => lex
  | Json.str raw => '"' :: raw ++ ['"']
  | Json.arr es => '[' :: serializeItems es ++ [']']
  | Json.obj ms => '\x7b' :: serializeMems ms ++ ['\x7d']

def serializeItems : List Json → List Char
  | [] => []
  | [x] => serializeJson x
  | x :: y :: xs => serializeJson x ++ ',' :: serializeItems (y :: xs)

def serializeMems : List (List Char × Json) → List Char
  | [] => []
  | [(k, v)] => '"' :: k ++ '"' :: ':' :: serializeJson v
  | (k, v) :: m :: ms =>
    '"' :: k ++ '"' :: ':' :: serializeJson v ++ ',' :: serializeMems (m :: ms)

end

/-- Count the occurrences of a pattern, scanning left to right and resuming
after each match, as a global regex match count does. -/
def countSubGo (pat : List Char) : Nat → List Char → Nat
  | 0, _ => 0
  | _, [] => 0
  | fuel + 1, c :: cs =>
    if isPre pat (c :: cs) then 1 + countSubGo pat fuel ((c :: cs).drop pat.length)
    else countSubGo pat fuel cs

/-- The number of TBD markers in the serialized slides. -/
def countTBD (l : List Char) : Nat :=
  countSubGo ['[', 'T', 'B', 'D'] l.length l

structure ValidationResult where
  valid : Bool
  errors : List String
  warnings : List String
deriving Repr, DecidableEq

def joinStr (sep : String) : List String → String
  | [] => ("")
  | [x] => x
  | x :: y :: xs => x ++ sep ++ joinStr sep (y :: xs)

/-- The Missing company.name message list (a warning for the synthesizer,
an error for the deck validator). -/
def companyNameMsgs (company : Option Json) : List String :=
  if companyNameTruthy company then [] else [("Missing company.name")]

/-- One warning per slide type absent from the slides array. -/
def missingTypeWarnings (slides : List Json) : List String :=
  (SLIDE_TYPES.filter (fun t => !hasType slides t)).map
    (fun t => ("Missing slide type: ") ++ t)

/-- How the template literal renders a slide's type value in the citation
warning (composite values abbreviated). -/
def slideTypeDisplay (s : Json) : String :=
  match lookupField s ("type") with
  | some (Json.str raw) => String.mk raw
  | some (Json.num lex) => String.mk lex
  | some (Json.bool true) => ("true")
  | some (Json.bool false) => ("false")
  | some Json.null => ("null")
  | some (Json.arr _) => ("[array]")
  | some (Json.obj _) => ("[object Object]")
  | none => ("undefined")

/-- Is the citations check of validateSynthesisOutput triggered: a falsy
citations field or an empty citations array. -/
def citationsMissing (s : Json) : Bool :=
  match lookupField s ("citations") with
  | none => true
  | some cv =>
    if !jsTruthy cv then true
    else match cv with
      | Json.arr l => l.isEmpty
      | _ => false

def citationWarnings (slides : List Json) : List String :=
  (slides.filter citationsMissing).map
    (fun s => ("Slide '") ++ slideTypeDisplay s ++ ("' has no citations"))

/-- Validate synthesis output structure: a missing slides array is the only
error (returned, not thrown, as valid false); a missing company name,
missing slide types and missing citations are warnings only. -/
def validateSynthesisOutput (output : SynthOutput) : Except AgentError ValidationResult :=
  match output.slides with
  | none =>
    Except.ok ⟨false, [("Missing or invalid slides array")], companyNameMsgs output.company⟩
  | some slides =>
    let errors : List String := []
    let warnings := companyNameMsgs output.company ++ missingTypeWarnings slides
      ++ citationWarnings slides
    if errors.length > 0 then
      Except.error ⟨("Synthesis output validation failed: ") ++ joinStr (", ") errors,
        none, []⟩
    else Except.ok ⟨true, errors, warnings⟩

def designMsgs (design : Option Json) : List String :=
  match design with
  | none => [("Missing design object")]
  | some d => if jsTruthy d then [] else [("Missing design object")]

def tbdWarnings (slides : List Json) : List String :=
  let tbd := countTBD (serializeJson (Json.arr slides))
  if tbd > 0 then [("Found ") ++ toString tbd ++ (" [TBD] entries in slides")] else []

/-- Validate the final deck config: a missing company name or slides array
is an error (thrown); a missing design object, missing slide types and TBD
entries are warnings only. -/
def validateDeckConfig (config : DeckConfig) : Except AgentError ValidationResult :=
  let errors := companyNameMsgs config.company
    ++ (match config.slides with
        | none => [("Missing or invalid slides array")]
        | some _ => [])
  let warnings := designMsgs config.design
    ++ (match config.slides with
        | none => []
        | some slides => missingTypeWarnings slides ++ tbdWarnings slides)
  if errors.length > 0 then
    Except.error ⟨("Deck config validation failed: ") ++ joinStr (", ") errors, none, []⟩
  else Except.ok ⟨true, errors, warnings⟩

/-- C7: for a synthesis output and a deck config that have a (truthy)
company name and a slides array, both validators return valid regardless of
which slide types are present: every absent slide type yields only the
Missing slide type warning, and neither validator errors or throws for it. -/
theorem validators_missing_slide_type_warn_only
    (so : SynthOutput) (dc : DeckConfig) (sl dl : List Json)
    (hsc : companyNameTruthy so.company = true)
    (hs : so.slides = some sl)
    (hdc : companyNameTruthy dc.company = true)
    (hds : dc.slides = some dl) :
    validateSynthesisOutput so
      = Except.ok ⟨true, [],
          companyNameMsgs so.company ++ missingTypeWarnings sl ++ citationWarnings sl⟩
    ∧ validateDeckConfig dc
      = Except.ok ⟨true, [],
          designMsgs dc.design ++ (missingTypeWarnings dl ++ tbdWarnings dl)⟩
    ∧ (∀ t ∈ SLIDE_TYPES, hasType sl t = false →
        (("Missing slide type: ") ++ t) ∈ missingTypeWarnings sl)
    ∧ (∀ t ∈ SLIDE_TYPES, hasType dl t = false →
        (("Missing slide type: ") ++ t) ∈ missingTypeWarnings dl) := by
  refine ⟨?_, ?_, ?_, ?_⟩
  · simp [validateSynthesisOutput, hs]
  · have he : companyNameMsgs dc.company = [] := by
      simp [companyNameMsgs, hdc]
    simp [validateDeckConfig, hds, he]
  · intro t ht hmiss
    exact List.mem_map.mpr ⟨t, List.mem_filter.mpr ⟨ht, by simp [hmiss]⟩, rfl⟩
  · intro t ht hmiss
    exact List.mem_map.mpr ⟨t, List.mem_filter.mpr ⟨ht, by simp [hmiss]⟩, rfl⟩

/-- C7 (witness): concrete outputs with a company name and an empty slides
array validate as valid, with all twelve missing types as warnings only. -/
theorem validators_warn_only_witness :
    validateSynthesisOutput
        ⟨some (Json.obj [(['n', 'a', 'm', 'e'], Json.str ['A'])]), some []⟩
      = Except.ok ⟨true, [],
          companyNameMsgs (some (Json.obj [(['n', 'a', 'm', 'e'], Json.str ['A'])]))
            ++ missingTypeWarnings [] ++ citationWarnings []⟩
    ∧ validateDeckConfig
        ⟨some (Json.obj [(['n', 'a', 'm', 'e'], Json.str ['A'])]), none, some []⟩
      = Except.ok ⟨true, [],
          designMsgs none ++ (missingTypeWarnings [] ++ tbdWarnings [])⟩ :=
  ⟨(validators_missing_slide_type_warn_only
      ⟨some (Json.obj [(['n', 'a', 'm', 'e'], Json.str ['A'])]), some []⟩
      ⟨some (Json.obj [(['n', 'a', 'm', 'e'], Json.str ['A'])]), none, some []⟩
      [] [] (by decide) rfl (by decide) rfl).1,
   (validators_missing_slide_type_warn_only
      ⟨some (Json.obj [(['n', 'a', 'm', 'e'], Json.str ['A'])]), some []⟩
      ⟨some (Json.obj [(['n', 'a', 'm', 'e'], Json.str ['A'])]), none, some []⟩
      [] [] (by decide) rfl (by decide) rfl).2.1⟩

/-! ## Aggregate gap analysis (classifier) -/

/-- A classified content item, as the gap analysis reads it. -/
structure ContentItem where
  type : String
  content : String
deriving Repr, DecidableEq

/-- A relevant source entry, as the gap analysis reads it. -/
structure SourceRef where
  relevanceScore : ℚ
deriving Repr, DecidableEq

structure DataQuality where
  completeness : ℚ
  sourceCount : Nat
  avgConfidence : ℚ
deriving Repr, DecidableEq

/-- The per-slide aggregate built by mergeClassifications, as far as
analyzeAggregateGaps inspects it. -/
structure SlideAgg where
  relevantSources : List SourceRef
  allContent : List ContentItem
  dataQuality : DataQuality
deriving Repr, DecidableEq

/-- The critical requirements table, in source order. It has eleven
entries: every slide type except purpose. -/
def criticalRequirements : List (String × List String) :=
  [(("title"), [("company_name"), ("tagline")]),
   (("problem"), [("pain_point"), ("statistic")]),
   (("solution"), [("value_proposition"), ("feature")]),
   (("whyNow"), [("timing_factor"), ("trend")]),
   (("marketSize"), [("tam"), ("sam"), ("market_size"), ("market")]),
   (("competition"), [("competitor"), ("differentiation")]),
   (("product"), [("feature"), ("capability")]),
   (("businessModel"), [("revenue_model"), ("pricing"), ("unit_economics")]),
   (("traction"), [("metric"), ("milestone"), ("customer")]),
   (("team"), [("founder"), ("executive"), ("background"), ("bio")]),
   (("ask"), [("funding_amount"), ("use_of_funds")])]

/-- Model of String.prototype.replace with a plain string pattern: replace
the first occurrence of the character only. -/
def replaceFirst (tgt rep : Char) : List Char → List Char
  | [] => []
  | c :: cs => if c == tgt then rep :: cs else c :: replaceFirst tgt rep cs

/-- The gap entries one criticalRequirements row contributes. -/
def slideGaps (slides : String → Option SlideAgg) (p : String × List String) :
    List String :=
  match slides p.1 with
  | none => []
  | some slide =>
    let contentTypes := slide.allContent.map (fun c => lowerAscii c.type)
    let contentText := joinStr (" ") (slide.allContent.map (fun c => lowerAscii c.content))
    if !(decide (slide.allContent.length > 0))
        && !(slide.relevantSources.any (fun src => decide (src.relevanceScore > 7 / 10))) then
      [p.1 ++ (": No content found")]
    else if slide.dataQuality.completeness < 3 / 10 then
      p.2.filterMap (fun req =>
        let reqText := String.mk (replaceFirst '_' ' ' req.data)
        let hasReq := contentTypes.any (fun t => containsSub t.data req.data)
          || containsSub contentText.data reqText.data
        if !hasReq && decide (slide.allContent.length < 2) then
          some (p.1 ++ (": Limited ") ++ reqText ++ (" information"))
        else none)
    else []

/-- All gap entries before deduplication and truncation. -/
def gapsRaw (slides : String → Option SlideAgg) : List String :=
  criticalRequirements.flatMap (slideGaps slides)

/-- First-occurrence deduplication, as spreading a Set does. The fuel only
bounds the recursion (the wrapper passes the length, which suffices). -/
def dedupFirstGo : Nat → List String → List String
  | 0, l => l
  | _, [] => []
  | fuel + 1, x :: xs => x :: dedupFirstGo fuel (xs.filter (fun y => !(y == x)))

def dedupFirst (l : List String) : List String :=
  dedupFirstGo l.length l

/-- Analyze what information is truly missing across all documents:
deduplicated gap entries, truncated to the first ten. -/
def analyzeAggregateGaps (slides : String → Option SlideAgg) : List String :=
  (dedupFirst (gapsRaw slides)).take 10

theorem dedupFirstGo_mem :
    ∀ (fuel : Nat) (l : List String) (a : String), l.length ≤ fuel →
      (a ∈ dedupFirstGo fuel l ↔ a ∈ l) := by
  intro fuel
  induction fuel with
  | zero =>
    intro l a h
    cases l with
    | nil => simp [dedupFirstGo]
    | cons x xs => simp at h
  | succ f ih =>
    intro l a h
    cases l with
    | nil => simp [dedupFirstGo]
    | cons x xs =>
      simp only [dedupFirstGo, List.mem_cons]
      have hlen : (xs.filter (fun y => !(y == x))).length ≤ f := by
        have h2 := List.length_filter_le (fun y => !(y == x)) xs
        simp only [List.length_cons] at h
        omega
      rw [ih _ a hlen]
      constructor
      · rintro (rfl | hm)
        · exact Or.inl rfl
        · exact Or.inr (List.mem_of_mem_filter hm)
      · rintro (rfl | hm)
        · exact Or.inl rfl
        · by_cases hax : a = x
          · exact Or.inl hax
          · exact Or.inr (List.mem_filter.mpr ⟨hm, by simp [hax]⟩)

theorem dedupFirst_mem (l : List String) (a : String) :
    a ∈ dedupFirst l ↔ a ∈ l :=
  dedupFirstGo_mem l.length l a le_rfl

/-- C8 (amended): for each of the eleven slide types with critical
requirements defined (every type except purpose), if that type's slide
aggregate exists with no classified content item and no source of relevance
above 0.7, then its No content found entry is among the raw gaps and
survives deduplication; the reported missingCritical is that deduplicated
list truncated to its first ten entries. -/
theorem analyzeAggregateGaps_empty_slide_listed
    (slides : String → Option SlideAgg) (t : String) (reqs : List String)
    (s : SlideAgg)
    (hmem : (t, reqs) ∈ criticalRequirements)
    (hslide : slides t = some s)
    (hempty : s.allContent = [])
    (hnohigh : s.relevantSources.any (fun src => decide (src.relevanceScore > 7 / 10))
        = false) :
    (t ++ (": No content found")) ∈ dedupFirst (gapsRaw slides)
    ∧ analyzeAggregateGaps slides = (dedupFirst (gapsRaw slides)).take 10 := by
  refine ⟨?_, rfl⟩
  rw [dedupFirst_mem]
  apply List.mem_flatMap.mpr
  refine ⟨(t, reqs), hmem, ?_⟩
  simp [slideGaps, hslide, hempty, hnohigh]

/-- The slide aggregate of a slide type for which no document produced any
content or relevant source. -/
def allEmptySlide : SlideAgg :=
  ⟨[], [], ⟨0, 0, 0⟩⟩

def allEmptySlides : String → Option SlideAgg :=
  fun _ => some allEmptySlide

/-- C8 (counterexample): when every one of the twelve slide types has an
aggregate with no content and no high-relevance source, the report lists
only ten entries: purpose is never listed, because criticalRequirements has
no purpose row, and ask is cut by the ten-entry truncation. -/
theorem analyzeAggregateGaps_counterexample :
    allEmptySlides ("purpose") = some allEmptySlide
    ∧ allEmptySlide.allContent = []
    ∧ allEmptySlide.relevantSources = []
    ∧ analyzeAggregateGaps allEmptySlides
        = [("title: No content found"), ("problem: No content found"),
           ("solution: No content found"), ("whyNow: No content found"),
           ("marketSize: No content found"), ("competition: No content found"),
           ("product: No content found"), ("businessModel: No content found"),
           ("traction: No content found"), ("team: No content found")]
    ∧ ¬ (("purpose: No content found") ∈ analyzeAggregateGaps allEmptySlides)
    ∧ ¬ (("ask: No content found") ∈ analyzeAggregateGaps allEmptySlides) :=
  ⟨rfl, rfl, rfl, by decide, by decide, by decide⟩

/-- C8 (witness): the title row of an all-empty classification is reported. -/
theorem analyzeAggregateGaps_witness :
    (("title") ++ (": No content found")) ∈ dedupFirst (gapsRaw allEmptySlides)
    ∧ analyzeAggregateGaps allEmptySlides
        = (dedupFirst (gapsRaw allEmptySlides)).take 10 :=
  analyzeAggregateGaps_empty_slide_listed allEmptySlides ("title")
    [("company_name"), ("tagline")] allEmptySlide (by decide) rfl rfl rfl
